import Mathlib

/-!
Verification development for the energy-correction engine of
`pymatgen/entries/compatibility.py`.

Shallow embedding conventions:
- Python floats are modelled as `ℚ` (the claims concern bookkeeping and
  control flow, not rounding).
- Python dicts are modelled as insertion-ordered association lists
  (`List (String × α)`); `alistGet` returns the value of the first binding
  of a key and `alistSet` overwrites that binding in place, or appends a
  fresh binding at the end, exactly like dict assignment.  Python dicts
  never hold duplicate keys, so on every state reachable from the code the
  two semantics coincide.
- Python exceptions are modelled with `Except PyErr`; `PyErr.compat` is
  `CompatibilityError`, the other constructors are the builtin exceptions
  the code can raise.
- Truthiness tests (`if entry.data.get("energy_adjustments"):` and the
  like) are modelled by explicit `truthy*` functions: `None` and empty
  dicts/strings are falsy, the float `0.0` is falsy.
-/

namespace Pymatgen

/-- Python exception kinds that can escape the functions under study.
`compat` is `CompatibilityError`; the others are builtins.  `typeError` is
raised by `"{:.3f}".format(x)` when `x` is `None` or a dict, which happens
while the merge-conflict branch of `process_entry` is building its error
message. -/
inductive PyErr where
  | compat
  | valueError
  | keyError
  | indexError
  | attributeError
  | typeError
deriving DecidableEq, Repr

/-- Lookup of the first binding of a key in an association list, the model of
`d.get(k)` on a Python dict. -/
def alistGet {α : Type} : List (String × α) → String → Option α
  | [], _ => none
  | p :: t, k => if p.1 = k then some p.2 else alistGet t k

/-- Model of Python dict assignment `d[k] = v`: overwrite the binding of `k`
in place if present, otherwise append a fresh binding at the end (insertion
order). -/
def alistSet {α : Type} : List (String × α) → String → α → List (String × α)
  | [], k, v => [(k, v)]
  | p :: t, k, v => if p.1 = k then (k, v) :: t else p :: alistSet t k v

/-- Truthiness of an optional dict: `None` and `{}` are falsy. -/
def truthyDict {α : Type} : Option (List (String × α)) → Bool
  | none => false
  | some l => !l.isEmpty

/-- Truthiness of an optional list: `None` and an empty list are falsy. -/
def truthyList {α : Type} : Option (List α) → Bool
  | none => false
  | some l => !l.isEmpty

/-- Truthiness of an optional float: `None` and `0.0` are falsy. -/
def truthyVal : Option ℚ → Bool
  | none => false
  | some v => decide (v ≠ 0)

/-- Truthiness of an optional string: `None` and `""` are falsy. -/
def truthyStr : Option String → Bool
  | none => false
  | some s => !s.isEmpty

/-- Inner level of the Ledger: adjustment label → value. -/
abbrev InnerDict := List (String × ℚ)

/-- The Ledger, `entry.data["energy_adjustments"]`: correction source name →
(adjustment label → value). -/
abbrev Ledger := List (String × InnerDict)

/-- One element of a composition.  `symbol` and `amount` model the
element→count multiset; `x` carries the element's electronegativity
(`Element.X`), an external datum read by `UCorrection`. -/
structure CElem where
  symbol : String
  x : ℚ
  amount : ℚ
deriving DecidableEq, Repr

/-- The composition abstraction the engine consumes (an external
collaborator): element list with per-element atom counts, plus the
reduced-formula string, which is computed outside the code under study and
is therefore carried as a field. -/
structure Composition where
  elems : List CElem
  reduced_formula : String
deriving DecidableEq, Repr

/-- Model of `comp[el]`: the atom count of an element, `0` when absent. -/
def compAmt (c : Composition) (sym : String) : ℚ :=
  match c.elems.find? (fun el => el.symbol == sym) with
  | some el => el.amount
  | none => 0

/-- Model of `Element(sym) in comp` (and `in comp.elements`). -/
def compContains (c : Composition) (sym : String) : Bool :=
  c.elems.any (fun el => el.symbol == sym)

/-- Model of `comp.num_atoms`: the total atom count, the sum of the
per-element amounts. -/
def Composition.num_atoms (c : Composition) : ℚ :=
  (c.elems.map (fun el => el.amount)).sum

/-- One dict of `entry.parameters["potcar_spec"]`, with the `hash` and
`titel` keys the code reads (`d.get(...)` can return `None`).  The list
elements model the truthy (nonempty) dicts; Python's `if d` filter drops
falsy ones. -/
structure PotcarSpec where
  hash : Option String
  titel : Option String
deriving DecidableEq, Repr

/-- The `entry.parameters` metadata map, restricted to the keys the code
under study reads. -/
structure Params where
  run_type : Option String
  hubbards : Option (List (String × ℚ))
  potcar_spec : Option (List PotcarSpec)
  potcar_symbols : List String
deriving DecidableEq, Repr

/-- The `entry.data` metadata map, restricted to the keys the code under
study reads and writes (`energy_adjustments` is the Ledger). -/
structure EntryData where
  sulfide_type : Option String
  oxide_type : Option String
  energy_adjustments : Option Ledger
deriving DecidableEq, Repr

/-- A ComputedEntry.  `struct` models the presence of a structure
(`hasattr(entry, "structure")`): `some s` is a ComputedStructureEntry whose
structure is named by an opaque id `s`, `none` a plain ComputedEntry. -/
structure Entry where
  composition : Composition
  uncorrected_energy : ℚ
  correction : ℚ
  parameters : Params
  data : EntryData
  struct : Option Nat
deriving DecidableEq, Repr

/-- Model of `entry.energy = uncorrected_energy + correction`. -/
def Entry.energy (e : Entry) : ℚ := e.uncorrected_energy + e.correction

/-- GasCorrection: post-construction state (`self.name`,
`self.cpd_energies`, the reference table of the claims). -/
structure GasCorrection where
  name : String
  cpd_energies : List (String × ℚ)

/-- Embedding of `GasCorrection.get_correction`: look the reduced formula up
in the compound-energy table; when present return
`table value * comp.num_atoms - uncorrected_energy`, else `0`. -/
def GasCorrection.get_correction (self : GasCorrection) (entry : Entry) : ℚ :=
  match alistGet self.cpd_energies entry.composition.reduced_formula with
  | some en => en * entry.composition.num_atoms - entry.uncorrected_energy
  | none => 0

/-- Direct dict indexing `d[k]` on a float-valued dict: raises `KeyError`
when the key is absent. -/
def dictIdx (d : List (String × ℚ)) (k : String) : Except PyErr ℚ :=
  match alistGet d k with
  | some v => .ok v
  | none => .error PyErr.keyError

/-- The external structural classifiers `sulfide_type` and `oxide_type`
(from `pymatgen.analysis.structure_analyzer`), consumed as opaque external
collaborators; `oxide_type` is called with `return_nbonds=True` and yields
the subtype string and the bond count. -/
structure Externals where
  sulfide_type : Nat → String
  oxide_type : Nat → String × ℚ

/-- UCorrection.common_peroxides, the fixed known-peroxide formula list. -/
def UCorrection.common_peroxides : List String :=
  ["Li2O2", "Na2O2", "K2O2", "Cs2O2", "Rb2O2", "BeO2",
   "MgO2", "CaO2", "SrO2", "BaO2"]

/-- UCorrection.common_superoxides, the fixed known-superoxide list. -/
def UCorrection.common_superoxides : List String :=
  ["LiO2", "NaO2", "KO2", "RbO2", "CsO2"]

/-- UCorrection.ozonides, the fixed known-ozonide list. -/
def UCorrection.ozonides : List String := ["LiO3", "NaO3", "KO3", "NaO5"]

/-- AnionCorrection: post-construction state (oxide and sulfide correction
tables, the scheme name and the `correct_peroxide` flag). -/
structure AnionCorrection where
  name : String
  oxide_correction : List (String × ℚ)
  sulfide_correction : List (String × ℚ)
  correct_peroxide : Bool

/-- Sulfur part of `AnionCorrection.get_correction`: choose the sulfide
subtype from `entry.data`, the structural classifier, or the default
`"sulfide"`, and apply the per-atom table value when the subtype is in the
table (guarded membership, so no exception can arise here). -/
def AnionCorrection.sulfurPart (self : AnionCorrection) (ext : Externals)
    (entry : Entry) : ℚ :=
  let comp := entry.composition
  if compContains comp "S" then
    let sf_type :=
      if truthyStr entry.data.sulfide_type then entry.data.sulfide_type.getD ""
      else
        match entry.struct with
        | some s => ext.sulfide_type s
        | none => "sulfide"
    match alistGet self.sulfide_correction sf_type with
    | some c => c * compAmt comp "S"
    | none => 0
  else 0

/-- Oxygen part of `AnionCorrection.get_correction`, entered when
`Element("O") in comp`: branch on `correct_peroxide`, then on a supplied
`oxide_type` datum, then on the presence of a structure, finally fall back
to reduced-formula matching against the fixed lists (surfacing a warning,
returned as the Bool).  Direct table indexing can raise `KeyError`. -/
def AnionCorrection.oxygenPart (self : AnionCorrection) (ext : Externals)
    (entry : Entry) : Except PyErr (ℚ × Bool) :=
  let comp := entry.composition
  if self.correct_peroxide then
    if truthyStr entry.data.oxide_type then
      let ot := entry.data.oxide_type.getD ""
      let c1 :=
        match alistGet self.oxide_correction ot with
        | some v => v * compAmt comp "O"
        | none => 0
      if ot = "hydroxide" then
        match dictIdx self.oxide_correction "oxide" with
        | .ok v => .ok (c1 + v * compAmt comp "O", false)
        | .error err => .error err
      else .ok (c1, false)
    else
      match entry.struct with
      | some st =>
        let otn := ext.oxide_type st
        match alistGet self.oxide_correction otn.1 with
        | some v => .ok (v * otn.2, false)
        | none =>
          if otn.1 = "hydroxide" then
            match dictIdx self.oxide_correction "oxide" with
            | .ok v => .ok (v * compAmt comp "O", false)
            | .error err => .error err
          else .ok (0, false)
      | none =>
        let rform := comp.reduced_formula
        if UCorrection.common_peroxides.contains rform then
          (dictIdx self.oxide_correction "peroxide").map
            (fun v => (v * compAmt comp "O", true))
        else if UCorrection.common_superoxides.contains rform then
          (dictIdx self.oxide_correction "superoxide").map
            (fun v => (v * compAmt comp "O", true))
        else if UCorrection.ozonides.contains rform then
          (dictIdx self.oxide_correction "ozonide").map
            (fun v => (v * compAmt comp "O", true))
        else if compContains comp "O" && decide (comp.elems.length > 1) then
          (dictIdx self.oxide_correction "oxide").map
            (fun v => (v * compAmt comp "O", true))
        else .ok (0, true)
  else
    (dictIdx self.oxide_correction "oxide").map
      (fun v => (v * compAmt comp "O", false))

/-- Embedding of `AnionCorrection.get_correction`: skip single-element
compositions, add the sulfur contribution, then the oxygen contribution.
The Bool records whether the formula-matching heuristic warning was
surfaced. -/
def AnionCorrection.get_correction (self : AnionCorrection) (ext : Externals)
    (entry : Entry) : Except PyErr (ℚ × Bool) :=
  if entry.composition.elems.length = 1 then .ok (0, false)
  else
    let s := self.sulfurPart ext entry
    if compContains entry.composition "O" then
      match self.oxygenPart ext entry with
      | .ok ow => .ok (s + ow.1, ow.2)
      | .error err => .error err
    else .ok (s, false)

/-- UCorrection: post-construction state.  Under `compat_type = "Advanced"`
the settings and correction tables are loaded; under `"GGA"` both are empty
dicts. -/
structure UCorrection where
  name : String
  u_settings : List (String × List (String × ℚ))
  u_corrections : List (String × List (String × ℚ))

/-- Stable insertion of an element into a list sorted by electronegativity:
placed after every element with key less than or equal to its own. -/
def insertX (a : CElem) : List CElem → List CElem
  | [] => [a]
  | b :: t => if a.x < b.x then a :: b :: t else b :: insertX a t

/-- Model of `sorted(l, key=lambda el: el.X)`: a stable sort by
electronegativity. -/
def sortByX (l : List CElem) : List CElem :=
  l.foldl (fun acc a => insertX a acc) []

/-- The accumulation loop of `UCorrection.get_correction`: for each element
of the composition, reject on a Hubbard U value differing from the expected
setting, otherwise add the per-atom correction when the element is in the
most-electronegative element's subtable. -/
def UCorrection.loop (calc_u usettings ucorr : List (String × ℚ))
    (comp : Composition) : List CElem → ℚ → Except PyErr ℚ
  | [], acc => .ok acc
  | el :: rest, acc =>
    if (alistGet calc_u el.symbol).getD 0 ≠ (alistGet usettings el.symbol).getD 0 then
      .error PyErr.compat
    else
      let acc' :=
        match alistGet ucorr el.symbol with
        | some c => acc + c * compAmt comp el.symbol
        | none => acc
      UCorrection.loop calc_u usettings ucorr comp rest acc'

/-- Embedding of `UCorrection.get_correction`: reject run type `"HF"`,
default missing `hubbards` to all-zero, pick the most-electronegative
element with a positive amount (IndexError on an empty composition), and
run the per-element check-and-accumulate loop. -/
def UCorrection.get_correction (self : UCorrection) (entry : Entry) :
    Except PyErr ℚ :=
  if entry.parameters.run_type.getD "GGA" = "HF" then .error PyErr.compat
  else
    let calc_u := entry.parameters.hubbards.getD []
    let comp := entry.composition
    let elements := sortByX (comp.elems.filter
      (fun el => decide (0 < compAmt comp el.symbol)))
    match elements.getLast? with
    | none => .error PyErr.indexError
    | some lastEl =>
      let most := lastEl.symbol
      let ucorr := (alistGet self.u_corrections most).getD []
      let usettings := (alistGet self.u_settings most).getD []
      UCorrection.loop calc_u usettings ucorr comp comp.elems 0

/-- PotcarCorrection: post-construction state (`self.valid_potcars`, the
expected symbol-or-hash per element, and the `check_hash` mode). -/
structure PotcarCorrection where
  valid_potcars : List (String × String)
  check_hash : Bool

/-- Model of Python `s.split()` (whitespace split dropping empty parts). -/
def pySplit (s : String) : List String :=
  (s.splitOn " ").filter (fun t => t ≠ "")

/-- Model of `l[1]` on a Python list: `IndexError` when too short. -/
def idx1 (l : List String) : Except PyErr String :=
  match l with
  | _ :: x :: _ => .ok x
  | _ => .error PyErr.indexError

/-- The `psp_settings` set of `PotcarCorrection.get_correction`: hashes when
`check_hash` (a missing `potcar_spec` raises `ValueError` there), else the
second whitespace-separated token of each `titel` (an absent `titel` raises
`AttributeError` at `None.split()`) or of each potcar symbol. -/
def PotcarCorrection.psp_settings (self : PotcarCorrection) (entry : Entry) :
    Except PyErr (List (Option String)) :=
  if self.check_hash then
    if truthyList entry.parameters.potcar_spec then
      .ok ((entry.parameters.potcar_spec.getD []).map (fun d => d.hash))
    else .error PyErr.valueError
  else
    if truthyList entry.parameters.potcar_spec then
      (entry.parameters.potcar_spec.getD []).mapM (fun d =>
        match d.titel with
        | none => .error PyErr.attributeError
        | some t => (idx1 (pySplit t)).map some)
    else
      ((entry.parameters.potcar_symbols.filter (fun s => s ≠ "")).mapM
        (fun s => (idx1 (pySplit s)).map some))

/-- Set equality of the two collections compared at the end of
`PotcarCorrection.get_correction` (Python `set` comparison; the expected
side can contain `None` from `valid_potcars.get`). -/
def osetEq (a b : List (Option String)) : Bool :=
  a.all (fun x => b.contains x) && b.all (fun x => a.contains x)

/-- Embedding of `PotcarCorrection.get_correction`: build `psp_settings`,
compare it as a set against the expected potcars of the composition's
elements, raise `CompatibilityError` on mismatch, else return `0`. -/
def PotcarCorrection.get_correction (self : PotcarCorrection) (entry : Entry) :
    Except PyErr ℚ :=
  match self.psp_settings entry with
  | .error err => .error err
  | .ok psp =>
    let expected := entry.composition.elems.map
      (fun el => alistGet self.valid_potcars el.symbol)
    if !osetEq expected psp then .error PyErr.compat else .ok 0

/-- A correction rule as seen by a `CorrectionsList`: its display name
(`str(c)`), its description (`c.__doc__` with the argument section already
stripped, carried as a field) and its `get_correction` function. -/
structure Rule where
  name : String
  doc : String
  run : Entry → Except PyErr ℚ

/-- Accumulating loop of `CorrectionsList.get_corrections_dict`: evaluate
every rule in order; a zero value is omitted; any exception propagates
immediately. -/
def getCorrectionsDictAux (entry : Entry) :
    List Rule → List (String × ℚ) → Except PyErr (List (String × ℚ))
  | [], acc => .ok acc
  | c :: rest, acc =>
    match c.run entry with
    | .error err => .error err
    | .ok val =>
      getCorrectionsDictAux entry rest
        (if val = 0 then acc else alistSet acc c.name val)

/-- The abstract `Compatibility` engine: its class name (used as the
Ledger source key `self.__class__.__name__`), the `clean` flag and the
abstract `get_corrections_dict` method. -/
structure Compatibility where
  className : String
  clean : Bool
  get_corrections_dict : Entry → Except PyErr (List (String × ℚ))

/-- Embedding of the `clean` step of `process_entry`: reset `correction` to
zero and delete the Ledger (`del` guarded by `except KeyError: pass`). -/
def cleanEntry (e : Entry) : Entry :=
  { e with correction := 0,
           data := { e.data with energy_adjustments := none } }

/-- Sum of the values of one inner Ledger dict. -/
def innerSum (d : InnerDict) : ℚ := (d.map (fun q => q.2)).sum

/-- Sum of all values nested in a Ledger, the double loop of
`validate_corrections`. -/
def ledSum (led : Ledger) : ℚ := (led.map (fun p => innerSum p.2)).sum

/-- The documented total of `validate_corrections`: the nested sum of
`entry.data["energy_adjustments"]`, computed only when the Ledger is
truthy, exactly as the code iterates it. -/
def documentedCorrection (e : Entry) : ℚ :=
  if truthyDict e.data.energy_adjustments then
    ledSum (e.data.energy_adjustments.getD [])
  else 0

/-- Embedding of `Compatibility.validate_corrections`: `true` when no
warning is emitted, i.e. `entry.correction` equals the documented total of
the Ledger.  The check is a warning only; it never changes state. -/
def Compatibility.validate_corrections (e : Entry) : Bool :=
  e.correction == documentedCorrection e

/-- Python equality between the result of `entry.data["energy_adjustments"].get(k)`
(which is `None` or an inner dict, since the top level of the Ledger maps
source names to dicts) and the float `v`: in Python neither `None` nor a
dict ever equals a float, so the comparison on line 470 of the source is
identically false. -/
def pyDictFloatEq (x : Option InnerDict) (v : ℚ) : Bool :=
  match x, v with
  | _, _ => false

/-- Helper of the merge protocol: apply a correction value and store the
given Ledger, modelling `entry.correction += v` followed by the dict
assignment into `entry.data`. -/
def applyAdj (st : Entry) (v : ℚ) (ea : Ledger) : Entry :=
  { st with correction := st.correction + v,
            data := { st.data with energy_adjustments := some ea } }

/-- One iteration of the merge loop of `process_entry` for the pair
`(k, v)`, following the nested truthiness checks of the source.  In the
mismatch branch the source executes `raise CompatibilityError(msg.format(
entry.entry_id, k, entry.data["energy_adjustments"].get(k), v))`: the
third format argument is the top-level lookup (`None` or an inner dict)
and its `{:.3f}` spec raises `TypeError` before the `CompatibilityError`
is ever constructed, so what actually escapes this branch is a
`TypeError`.  An error result carries that exception together with the
in-place state of the caller's entry at the moment of the raise (the
entry keeps all mutations made so far). -/
def mergeOne (name : String) (st : Entry) (k : String) (v : ℚ) :
    Except (PyErr × Entry) Entry :=
  if truthyDict st.data.energy_adjustments then
    let led := st.data.energy_adjustments.getD []
    if truthyDict (alistGet led name) then
      let inner := (alistGet led name).getD []
      if truthyVal (alistGet inner k) then
        if pyDictFloatEq (alistGet led k) v then
          .ok st
        else
          .error (PyErr.typeError, st)
      else .ok (applyAdj st v (alistSet led name (alistSet inner k v)))
    else .ok (applyAdj st v (alistSet led name [(k, v)]))
  else .ok (applyAdj st v [(name, [(k, v)])])

/-- The whole merge loop of `process_entry` over the computed corrections
dict; an error carries the escaping exception and the in-place mutated
state at the abort point. -/
def mergeAll (name : String) :
    Entry → List (String × ℚ) → Except (PyErr × Entry) Entry
  | st, [] => .ok st
  | st, (k, v) :: rest =>
    match mergeOne name st k v with
    | .ok st' => mergeAll name st' rest
    | .error stFail => .error stFail

/-- Result of a non-raising `process_entry` call on an entry object:
`result` is the returned value (`some` entry or `None`), `entryState` the
state of the caller's entry object after the call (the code mutates it in
place, so the two can differ when the entry is rejected). -/
structure ProcessResult where
  result : Option Entry
  entryState : Entry
deriving DecidableEq, Repr

/-- Embedding of `Compatibility.process_entry`: optional clean step,
(validation emits only a warning and changes no state), computation of the
corrections dict, then the merge loop.  Only `CompatibilityError` is
caught and turned into a `None` result; every other exception — including
the `TypeError` raised while the merge-conflict branch formats its message
— propagates, paired with the in-place state the caller's entry is left
in. -/
def Compatibility.process_entry (self : Compatibility) (entry : Entry) :
    Except (PyErr × Entry) ProcessResult :=
  let e0 := if self.clean then cleanEntry entry else entry
  match self.get_corrections_dict e0 with
  | .error PyErr.compat => .ok ⟨none, e0⟩
  | .error err => .error (err, e0)
  | .ok ds =>
    match mergeAll self.className e0 ds with
    | .ok e1 => .ok ⟨some e1, e1⟩
    | .error errst => .error errst

/-- Embedding of `Compatibility.process_entries`
(`list(filter(None, map(self.process_entry, entries)))`): each entry is
processed in order; rejected entries are dropped; an exception raised while
processing any entry aborts the whole batch. -/
def Compatibility.process_entries (self : Compatibility) :
    List Entry → Except (PyErr × Entry) (List Entry)
  | [] => .ok []
  | e :: rest =>
    match self.process_entry e with
    | .error errst => .error errst
    | .ok pr =>
      match Compatibility.process_entries self rest with
      | .error errst => .error errst
      | .ok tail =>
        .ok (match pr.result with
             | some ce => ce :: tail
             | none => tail)

/-- Invariant I1 of the spec, stated through the code's own validator:
`correction` equals the documented total of the Ledger. -/
def I1 (e : Entry) : Prop := Compatibility.validate_corrections e = true

/-- A sequence of `process_entry` applications (possibly under different
engine configurations); `some states` collects the entry after every step
when every step succeeds, `none` as soon as one is rejected or raises. -/
def processChain : List Compatibility → Entry → Option (List Entry)
  | [], _ => some []
  | eng :: rest, e =>
    match eng.process_entry e with
    | .ok pr =>
      match pr.result with
      | some e' => (processChain rest e').map (fun l => e' :: l)
      | none => none
    | .error _ => none

/-- CorrectionsList: the concrete rule-set engine (class name, `clean`
flag, ordered rule list). -/
structure CorrectionsList where
  className : String
  clean : Bool
  corrections : List Rule

/-- Embedding of `CorrectionsList.get_corrections_dict`. -/
def CorrectionsList.get_corrections_dict (self : CorrectionsList)
    (entry : Entry) : Except PyErr (List (String × ℚ)) :=
  getCorrectionsDictAux entry self.corrections []

/-- The `Compatibility` engine a `CorrectionsList` presents to
`process_entry`. -/
def CorrectionsList.toCompatibility (self : CorrectionsList) : Compatibility :=
  ⟨self.className, self.clean, self.get_corrections_dict⟩

/-- The structured audit record produced by
`CorrectionsList.get_explanation_dict`: scheme name, uncorrected energy,
corrected energy (`None` for a rejected entry) and per-rule
(name, description, value) triples in configuration order. -/
structure Explanation where
  compatibility : String
  uncorrected_energy : ℚ
  corrected_energy : Option ℚ
  corrections : List (String × String × ℚ)
deriving DecidableEq, Repr

/-- Embedding of `CorrectionsList.get_explanation_dict`.  The call runs
`process_entry` on the entry object itself, so the returned pair also
carries the state of the caller's entry after the call; any exception
escaping `process_entry` propagates, and the second
`get_corrections_dict` call is made on that same (possibly mutated) object
with its exceptions propagating as well. -/
def CorrectionsList.get_explanation_dict (self : CorrectionsList)
    (entry : Entry) : Except (PyErr × Entry) (Explanation × Entry) :=
  match self.toCompatibility.process_entry entry with
  | .error errst => .error errst
  | .ok pr =>
    let e1 := pr.entryState
    let uncorrected :=
      match pr.result with
      | none => e1.uncorrected_energy
      | some ce => ce.uncorrected_energy
    let corrected : Option ℚ :=
      match pr.result with
      | none => none
      | some ce => some ce.energy
    match self.get_corrections_dict e1 with
    | .error err => .error (err, e1)
    | .ok cd =>
      .ok (⟨self.className, uncorrected, corrected,
            self.corrections.map
              (fun c => (c.name, c.doc, (alistGet cd c.name).getD 0))⟩, e1)

/-! Helper lemmas about the association-list model and the merge
protocol. -/

/-- Truthiness of an optional dict unfolded. -/
theorem truthyDict_iff {α : Type} {o : Option (List (String × α))} :
    truthyDict o = true ↔ ∃ l, o = some l ∧ l ≠ [] := by
  cases o with
  | none => simp [truthyDict]
  | some l => cases l <;> simp [truthyDict]

/-- Falsity of an optional dict unfolded. -/
theorem truthyDict_false_iff {α : Type} {o : Option (List (String × α))} :
    truthyDict o = false ↔ o = none ∨ o = some [] := by
  cases o with
  | none => simp [truthyDict]
  | some l => cases l <;> simp [truthyDict]

/-- Falsity of an optional float unfolded. -/
theorem truthyVal_false_iff {o : Option ℚ} :
    truthyVal o = false ↔ o = none ∨ o = some 0 := by
  cases o with
  | none => simp [truthyVal]
  | some v => by_cases hv : v = 0 <;> simp [truthyVal, hv]

/-- Writing one key of an association list changes a value sum by the new
value minus the displaced one. -/
theorem alistSet_sum {α : Type} (f : α → ℚ) (l : List (String × α))
    (k : String) (v : α) :
    ((alistSet l k v).map (fun p => f p.2)).sum
      = (l.map (fun p => f p.2)).sum + f v - (alistGet l k).elim 0 f := by
  induction l with
  | nil => simp [alistSet, alistGet]
  | cons p t ih =>
    by_cases hk : p.1 = k
    · simp [alistSet, alistGet, hk]
      ring
    · simp [alistSet, alistGet, hk, ih]
      ring

/-- Invariant I1 unfolded to the numeric equation of the validator. -/
theorem I1_iff {e : Entry} :
    I1 e ↔ e.correction = documentedCorrection e := by
  simp [I1, Compatibility.validate_corrections]

/-- A falsy Ledger documents a zero total. -/
theorem documentedCorrection_of_falsy {e : Entry}
    (h : truthyDict e.data.energy_adjustments = false) :
    documentedCorrection e = 0 := by
  simp [documentedCorrection, h]

/-- A truthy Ledger documents its nested sum. -/
theorem documentedCorrection_of_some {e : Entry} {led : Ledger}
    (h : e.data.energy_adjustments = some led) (hne : led ≠ []) :
    documentedCorrection e = ledSum led := by
  have ht : truthyDict (some led) = true := truthyDict_iff.mpr ⟨led, rfl, hne⟩
  simp [documentedCorrection, h, ht]

/-- The Ledger written by `applyAdj` is what is documented afterwards. -/
theorem documentedCorrection_applyAdj (st : Entry) (v : ℚ) {ea : Ledger}
    (h : ea ≠ []) :
    documentedCorrection (applyAdj st v ea) = ledSum ea := by
  have ht : truthyDict (some ea) = true := truthyDict_iff.mpr ⟨ea, rfl, h⟩
  simp [documentedCorrection, applyAdj, ht]

/-- A successful lookup implies the association list is nonempty. -/
theorem alistGet_some_ne_nil {α : Type} {l : List (String × α)} {k : String}
    {a : α} (h : alistGet l k = some a) : l ≠ [] := by
  intro hl
  subst hl
  simp [alistGet] at h

/-- `alistSet` never produces the empty list. -/
theorem alistSet_ne_nil {α : Type} (l : List (String × α)) (k : String)
    (v : α) : alistSet l k v ≠ [] := by
  cases l with
  | nil => simp [alistSet]
  | cons p t =>
    by_cases hk : p.1 = k <;> simp [alistSet, hk]

/-- Sum form of `ledSum` after a top-level Ledger write. -/
theorem ledSum_alistSet (led : Ledger) (name : String) (d : InnerDict) :
    ledSum (alistSet led name d)
      = ledSum led + innerSum d - (alistGet led name).elim 0 innerSum := by
  simpa [ledSum] using alistSet_sum innerSum led name d

/-- Sum form of `innerSum` after an inner-dict write. -/
theorem innerSum_alistSet (d : InnerDict) (k : String) (v : ℚ) :
    innerSum (alistSet d k v)
      = innerSum d + v - (alistGet d k).elim 0 (fun x => x) := by
  simpa [innerSum] using alistSet_sum (fun x => x) d k v

/-- One merge step of the protocol preserves invariant I1. -/
theorem mergeOne_I1 {name : String} {st st' : Entry} {k : String} {v : ℚ}
    (h1 : I1 st) (h : mergeOne name st k v = .ok st') : I1 st' := by
  rw [I1_iff] at h1 ⊢
  by_cases hT : truthyDict st.data.energy_adjustments = true
  · obtain ⟨led, hea, hledne⟩ := truthyDict_iff.mp hT
    have hT' : truthyDict (some led) = true := hea ▸ hT
    rw [documentedCorrection_of_some hea hledne] at h1
    by_cases hS : truthyDict (alistGet led name) = true
    · obtain ⟨inner, hin, hinne⟩ := truthyDict_iff.mp hS
      have hS' : truthyDict (some inner) = true := hin ▸ hS
      by_cases hV : truthyVal (alistGet inner k) = true
      · simp only [mergeOne, hea, Option.getD_some, hT', hS', hV, hin,
          pyDictFloatEq, Bool.false_eq_true, if_false, if_true] at h
        exact absurd h (by simp)
      · rw [Bool.not_eq_true] at hV
        simp only [mergeOne, hea, Option.getD_some, hT', hS', hin, hV,
          Bool.false_eq_true, if_false, if_true] at h
        injection h with h2
        subst h2
        rw [documentedCorrection_applyAdj _ _ (alistSet_ne_nil _ _ _)]
        simp only [applyAdj]
        rw [ledSum_alistSet, hin, innerSum_alistSet]
        rcases truthyVal_false_iff.mp hV with h0 | h0 <;>
          · rw [h0]
            simp only [Option.elim]
            linarith
    · rw [Bool.not_eq_true] at hS
      simp only [mergeOne, hea, Option.getD_some, hT', hS,
        Bool.false_eq_true, if_false, if_true] at h
      injection h with h2
      subst h2
      rw [documentedCorrection_applyAdj _ _ (alistSet_ne_nil _ _ _)]
      simp only [applyAdj]
      rw [ledSum_alistSet]
      rcases truthyDict_false_iff.mp hS with h0 | h0 <;>
        · rw [h0]
          simp [innerSum]
          linarith
  · rw [Bool.not_eq_true] at hT
    rw [documentedCorrection_of_falsy hT] at h1
    simp only [mergeOne, hT, Bool.false_eq_true, if_false] at h
    injection h with h2
    subst h2
    rw [documentedCorrection_applyAdj _ _ (by simp)]
    simp only [applyAdj]
    simp [ledSum, innerSum]
    linarith

/-- The whole merge loop preserves invariant I1. -/
theorem mergeAll_I1 {name : String} {ds : List (String × ℚ)} :
    ∀ {st st' : Entry}, I1 st → mergeAll name st ds = .ok st' → I1 st' := by
  induction ds with
  | nil =>
    intro st st' h1 h
    simp only [mergeAll] at h
    injection h with h2
    exact h2 ▸ h1
  | cons kv rest ih =>
    obtain ⟨k, v⟩ := kv
    intro st st' h1 h
    simp only [mergeAll] at h
    cases hmo : mergeOne name st k v with
    | ok st1 =>
      rw [hmo] at h
      exact ih (mergeOne_I1 h1 hmo) h
    | error st1 =>
      rw [hmo] at h
      exact absurd h (by simp)

/-- The clean step establishes invariant I1 outright. -/
theorem cleanEntry_I1 (e : Entry) : I1 (cleanEntry e) := by
  rw [I1_iff]
  simp [cleanEntry, documentedCorrection, truthyDict]

/-- A successful `process_entry` preserves invariant I1. -/
theorem process_entry_I1 {eng : Compatibility} {e : Entry}
    {pr : ProcessResult} (h1 : I1 e) (h : eng.process_entry e = .ok pr)
    {e' : Entry} (hr : pr.result = some e') : I1 e' := by
  simp only [Compatibility.process_entry] at h
  set e0 := if eng.clean = true then cleanEntry e else e with he0
  have h0 : I1 e0 := by
    rw [he0]
    split
    · exact cleanEntry_I1 e
    · exact h1
  cases hg : eng.get_corrections_dict e0 with
  | error err =>
    rw [hg] at h
    cases err <;> simp only [] at h <;>
      first
        | (injection h with h2
           rw [← h2] at hr
           exact absurd hr (by simp))
        | exact absurd h (by simp)
  | ok ds =>
    rw [hg] at h
    simp only [] at h
    cases hm : mergeAll eng.className e0 ds with
    | ok e1 =>
      rw [hm] at h
      simp only [] at h
      injection h with h2
      rw [← h2] at hr
      simp only [] at hr
      injection hr with h3
      exact h3 ▸ mergeAll_I1 h0 hm
    | error errst =>
      rw [hm] at h
      simp only [] at h
      exact absurd h (by simp)

/-- Every exception escaping a `mergeOne` step is the `TypeError` raised
while the conflict branch formats its error message. -/
theorem mergeOne_error_fst {name : String} {st : Entry} {k : String}
    {v : ℚ} {errst : PyErr × Entry}
    (h : mergeOne name st k v = .error errst) :
    errst.1 = PyErr.typeError := by
  simp only [mergeOne] at h
  split_ifs at h <;>
    first
      | exact Except.noConfusion h
      | (injection h with h2
         subst h2
         rfl)

/-- Every exception escaping the merge loop is the conflict branch's
`TypeError`. -/
theorem mergeAll_error_fst {name : String} {ds : List (String × ℚ)} :
    ∀ {st : Entry} {errst : PyErr × Entry},
      mergeAll name st ds = .error errst → errst.1 = PyErr.typeError := by
  induction ds with
  | nil =>
    intro st errst h
    simp only [mergeAll] at h
    exact Except.noConfusion h
  | cons kv rest ih =>
    obtain ⟨k, v⟩ := kv
    intro st errst h
    simp only [mergeAll] at h
    cases hmo : mergeOne name st k v with
    | ok st1 =>
      rw [hmo] at h
      exact ih h
    | error errst2 =>
      rw [hmo] at h
      injection h with h2
      exact h2 ▸ mergeOne_error_fst hmo

/-- `process_entry` catches `CompatibilityError`; the only exceptions it
can surface (paired with the entry's in-place state) are of other kinds. -/
theorem process_entry_no_compat {eng : Compatibility} {e : Entry}
    {errst : PyErr × Entry} (h : eng.process_entry e = .error errst) :
    errst.1 ≠ PyErr.compat := by
  simp only [Compatibility.process_entry] at h
  cases hg : eng.get_corrections_dict (if eng.clean = true then cleanEntry e else e) with
  | error e2 =>
    rw [hg] at h
    cases e2 <;> simp only [] at h <;>
      first
        | exact Except.noConfusion h
        | (injection h with h2
           subst h2
           simp)
  | ok ds =>
    rw [hg] at h
    simp only [] at h
    cases hm : mergeAll eng.className
        (if eng.clean = true then cleanEntry e else e) ds with
    | ok e1 =>
      rw [hm] at h
      exact absurd h (by simp)
    | error errst2 =>
      rw [hm] at h
      injection h with h2
      subst h2
      have hfst := mergeAll_error_fst hm
      simp [hfst]

/-! Theorems settling the claims. -/

/-- Claim C3: for every entry satisfying invariant I1 (`correction` equals
the sum of all values nested in its Ledger, e.g. a fresh entry with no
Ledger and zero correction), after any sequence of successful
`process_entry` applications — possibly under different engine
configurations — every intermediate entry state of the chain still
satisfies I1, so the invariant holds after every step. -/
theorem processChain_preserves_I1 (engs : List Compatibility) :
    ∀ (e : Entry), I1 e → ∀ (states : List Entry),
      processChain engs e = some states → ∀ s ∈ states, I1 s := by
  induction engs with
  | nil =>
    intro e h1 states hrun s hs
    simp only [processChain] at hrun
    injection hrun with h2
    subst h2
    simp at hs
  | cons eng rest ih =>
    intro e h1 states hrun s hs
    simp only [processChain] at hrun
    cases hp : eng.process_entry e with
    | error err =>
      rw [hp] at hrun
      exact absurd hrun (by simp)
    | ok pr =>
      rw [hp] at hrun
      simp only [] at hrun
      cases hr : pr.result with
      | none =>
        rw [hr] at hrun
        exact absurd hrun (by simp)
      | some e' =>
        rw [hr] at hrun
        simp only [] at hrun
        cases hc : processChain rest e' with
        | none =>
          rw [hc] at hrun
          exact absurd hrun (by simp)
        | some tail =>
          rw [hc] at hrun
          simp only [Option.map_some', Option.some.injEq] at hrun
          subst hrun
          have hI : I1 e' := process_entry_I1 h1 hp hr
          rcases List.mem_cons.mp hs with rfl | hs2
          · exact hI
          · exact ih e' hI tail hc s hs2

/-- Claim C7 (amended): `process_entries` drops rejected entries and keeps
the surviving ones in their original relative order, and no
`CompatibilityError` ever crosses its boundary; however exceptions of other
kinds — the `ValueError` of hash checking, or the `TypeError` raised while
the merge-conflict branch formats its message — do propagate out of the
batch (together with the in-place state of the entry being processed). -/
theorem process_entries_drop_order_no_compat (eng : Compatibility)
    (l : List Entry) :
    (∀ errst : PyErr × Entry,
      eng.process_entries l = .error errst → errst.1 ≠ PyErr.compat) ∧
    ((∀ e ∈ l, ∃ pr, eng.process_entry e = .ok pr) →
      eng.process_entries l
        = .ok (l.filterMap (fun e =>
            match eng.process_entry e with
            | .ok pr => pr.result
            | .error _ => none))) := by
  induction l with
  | nil =>
    constructor
    · intro err h
      simp [Compatibility.process_entries] at h
    · intro _
      simp [Compatibility.process_entries]
  | cons e rest ih =>
    constructor
    · intro err h
      simp only [Compatibility.process_entries] at h
      cases hp : eng.process_entry e with
      | error e2 =>
        rw [hp] at h
        simp only [] at h
        injection h with h2
        subst h2
        exact process_entry_no_compat hp
      | ok pr =>
        rw [hp] at h
        simp only [] at h
        cases hrest : eng.process_entries rest with
        | error e2 =>
          rw [hrest] at h
          simp only [] at h
          injection h with h2
          subst h2
          exact ih.1 _ hrest
        | ok tail =>
          rw [hrest] at h
          simp only [] at h
          exact absurd h (by simp)
    · intro hall
      obtain ⟨pr, hp⟩ := hall e (List.mem_cons_self e rest)
      have hrest := ih.2 (fun e' he' => hall e' (List.mem_cons_of_mem e he'))
      simp only [Compatibility.process_entries, hp, hrest]
      cases hr : pr.result with
      | some ce => simp [List.filterMap_cons, hp, hr]
      | none => simp [List.filterMap_cons, hp, hr]

/-- Claim C4 (amended): when the reduced formula is present in the
compound-energy table with value `E`, `GasCorrection.get_correction`
returns exactly `E * comp.num_atoms - uncorrected_energy` (the table value
scaled by the total atom count, not by the number of formula units); when
it is absent the correction is zero. -/
theorem gas_correction_table_exact (g : GasCorrection) (e : Entry) :
    (∀ E, alistGet g.cpd_energies e.composition.reduced_formula = some E →
       g.get_correction e
         = E * e.composition.num_atoms - e.uncorrected_energy) ∧
    (alistGet g.cpd_energies e.composition.reduced_formula = none →
       g.get_correction e = 0) := by
  constructor
  · intro E hE
    simp [GasCorrection.get_correction, hE]
  · intro hE
    simp [GasCorrection.get_correction, hE]

/-- Claim C5 (amended): `get_explanation_dict` runs `process_entry` on the
caller's entry itself, not on a private copy, so after a successful audit
call the entry object is left exactly in the processed state, and the
displayed corrected energy is the energy of the processed entry when
processing succeeded (`None` when it was rejected). -/
theorem get_explanation_dict_entry_state (cl : CorrectionsList)
    (entry : Entry) (pr : ProcessResult)
    (hp : cl.toCompatibility.process_entry entry = .ok pr)
    (out : Explanation × Entry)
    (hout : cl.get_explanation_dict entry = .ok out) :
    out.2 = pr.entryState ∧
      out.1.corrected_energy = pr.result.map Entry.energy := by
  simp only [CorrectionsList.get_explanation_dict] at hout
  rw [hp] at hout
  simp only [] at hout
  cases hc : cl.get_corrections_dict pr.entryState with
  | error err =>
    rw [hc] at hout
    exact absurd hout (by simp)
  | ok cd =>
    rw [hc] at hout
    simp only [] at hout
    injection hout with h2
    subst h2
    constructor
    · rfl
    · cases pr.result <;> simp [Entry.energy]

/-- Claim C6 (amended): the audit of a rejected entry always fails instead
of producing a record.  When `get_corrections_dict` raises on the entry's
post-clean state (the rule set rejects the entry), `get_explanation_dict`
surfaces that same exception: a `CompatibilityError` is caught inside
`process_entry` only to be re-raised by the audit's second, unguarded
`get_corrections_dict` call, and any other exception propagates through
`process_entry` directly.  Likewise any exception escaping `process_entry`
itself — such as the `TypeError` of the merge-conflict branch — propagates
out of the audit unchanged, paired with the entry's mutated in-place
state.  No record with an absent final energy is ever produced for a
rejected entry. -/
theorem get_explanation_dict_rejection_propagates (cl : CorrectionsList)
    (entry : Entry) :
    (∀ err, cl.get_corrections_dict
          (if cl.clean then cleanEntry entry else entry) = .error err →
        cl.get_explanation_dict entry
          = .error (err, if cl.clean then cleanEntry entry else entry)) ∧
    (∀ errst : PyErr × Entry,
        cl.toCompatibility.process_entry entry = .error errst →
      cl.get_explanation_dict entry = .error errst) := by
  constructor
  · intro err herr
    simp only [CorrectionsList.get_explanation_dict,
      Compatibility.process_entry, CorrectionsList.toCompatibility]
    cases err <;> simp [herr]
  · intro errst hpe
    simp only [CorrectionsList.get_explanation_dict, hpe]

/-- Claim C8 (amended): the run-type screen of
`UCorrection.get_correction` unconditionally rejects exactly the entries
declaring run type `"HF"`, regardless of composition or Hubbard
parameters; other non-GGA run types are not screened out there. -/
theorem u_correction_hf_rejected (u : UCorrection) (e : Entry)
    (h : e.parameters.run_type.getD "GGA" = "HF") :
    u.get_correction e = .error PyErr.compat := by
  simp [UCorrection.get_correction, h]

/-- Claim C9: an oxygen-bearing, multi-element, sulfur-free entry whose
reduced formula is `"Li2O2"` (a member of the known-peroxide list), with
no `oxide_type` datum and no structure, processed with peroxide
corrections enabled, receives the `"peroxide"` table value multiplied by
its oxygen-atom count — not the generic `"oxide"` value — and the
formula-matching heuristic warning is surfaced. -/
theorem anion_li2o2_peroxide (a : AnionCorrection) (ext : Externals)
    (e : Entry)
    (hcp : a.correct_peroxide = true)
    (hrf : e.composition.reduced_formula = "Li2O2")
    (hlen : e.composition.elems.length ≠ 1)
    (hO : compContains e.composition "O" = true)
    (hS : compContains e.composition "S" = false)
    (hot : truthyStr e.data.oxide_type = false)
    (hst : e.struct = none)
    (pv : ℚ)
    (hpv : alistGet a.oxide_correction "peroxide" = some pv) :
    a.get_correction ext e = .ok (pv * compAmt e.composition "O", true) := by
  have hmem : UCorrection.common_peroxides.contains "Li2O2" = true := by
    decide
  have hsulf : a.sulfurPart ext e = 0 := by
    simp [AnionCorrection.sulfurPart, hS]
  have hoxy : a.oxygenPart ext e
      = .ok (pv * compAmt e.composition "O", true) := by
    simp only [AnionCorrection.oxygenPart, hcp, hot, hst, hrf, hmem,
      Bool.false_eq_true, if_false, if_true, dictIdx, hpv]
    rfl
  simp only [AnionCorrection.get_correction, hlen, hO, hsulf, hoxy,
    if_false, if_true]
  simp

/-- Claim C10: when the Ledger already stores, under the engine's own
source key, the label `k` with value exactly `0`, a run whose rule set
computes the single nonzero value `v` for `k` neither raises a conflict
nor is treated as an idempotent no-op: the stored zero is overwritten with
`v` and `v` is added to `correction`, because the merge protocol tests the
stored value for truthiness rather than presence. -/
theorem process_entry_stored_zero_overwrite (eng : Compatibility)
    (e : Entry) (k : String) (v : ℚ) (led : Ledger) (inner : InnerDict)
    (hcl : eng.clean = false)
    (hds : eng.get_corrections_dict e = .ok [(k, v)])
    (hea : e.data.energy_adjustments = some led)
    (hled : alistGet led eng.className = some inner)
    (hz : alistGet inner k = some 0)
    (_hv : v ≠ 0) :
    eng.process_entry e
      = .ok ⟨some (applyAdj e v (alistSet led eng.className (alistSet inner k v))),
             applyAdj e v (alistSet led eng.className (alistSet inner k v))⟩ := by
  have hT : truthyDict (some led) = true :=
    truthyDict_iff.mpr ⟨led, rfl, alistGet_some_ne_nil hled⟩
  have hS : truthyDict (some inner) = true :=
    truthyDict_iff.mpr ⟨inner, rfl, alistGet_some_ne_nil hz⟩
  have hVz : truthyVal (some (0 : ℚ)) = false := by decide
  simp only [Compatibility.process_entry, hcl, Bool.false_eq_true, if_false,
    hds]
  simp only [mergeAll, mergeOne, hea, Option.getD_some, hT, hS, hled, hz,
    hVz, Bool.false_eq_true, if_false, if_true]


/-! Concrete fixtures for the closed theorems and the witnesses. -/

deriving instance DecidableEq for Except

/-- A fresh O2-composition entry: no Ledger, zero correction. -/
def entryFresh : Entry :=
  { composition := ⟨[⟨"O", 3, 2⟩], "O2"⟩
    uncorrected_energy := -9
    correction := 0
    parameters := ⟨none, none, none, []⟩
    data := ⟨none, none, none⟩
    struct := none }

/-- An engine with `clean = False` whose rule set always computes the
single correction `{"A": 2.0}`. -/
def engIdem : Compatibility := ⟨"CompatA", false, fun _ => .ok [("A", 2)]⟩

/-- `entryFresh` after one successful application of `engIdem`. -/
def entryOnce : Entry :=
  { entryFresh with
    correction := 2
    data := { entryFresh.data with
              energy_adjustments := some [("CompatA", [("A", 2)])] } }

/-- Claim C1 (code bug): re-application is not idempotent.  `entryOnce` is
exactly the result of successfully processing the fresh entry under
`engIdem` (`clean = False`); processing it a second time with the same
configuration crashes with an escaping `TypeError` instead of returning
the entry unchanged as the idempotence contract (and the code's own
`Do nothing` comment) demands: the stored-value comparison reads the top
level of the Ledger instead of the nested source dict, and the raise it
falls into formats that `None` with `{:.3f}`, so a `TypeError` escapes
the `except CompatibilityError` handler. -/
theorem process_entry_reapplication_crashes :
    engIdem.process_entry entryFresh = .ok ⟨some entryOnce, entryOnce⟩ ∧
    engIdem.process_entry entryOnce
      = .error (PyErr.typeError, entryOnce) := by
  constructor <;>
    (simp [Compatibility.process_entry, mergeAll, mergeOne, applyAdj,
      truthyDict, truthyVal, pyDictFloatEq, alistGet, alistSet, engIdem,
      entryFresh, entryOnce] <;> norm_num)

/-- An engine with `clean = False` whose rule set computes
`{"A": 1.0, "B": 2.0}`. -/
def engTwoLabels : Compatibility :=
  ⟨"CompatA", false, fun _ => .ok [("A", 1), ("B", 2)]⟩

/-- An entry whose Ledger stores `B = 5.0` under the engine's source key. -/
def entryStoredB : Entry :=
  { entryFresh with
    correction := 5
    data := { entryFresh.data with
              energy_adjustments := some [("CompatA", [("B", 5)])] } }

/-- `entryStoredB` after the aborted merge: the label `A` was applied
before the conflict on `B` was detected. -/
def entryStoredBMut : Entry :=
  { entryFresh with
    correction := 6
    data := { entryFresh.data with
              energy_adjustments := some [("CompatA", [("B", 5), ("A", 1)])] } }

/-- Claim C2 (code bug): conflict handling is doubly broken.  With the
Ledger already storing `A = 2.0` under the engine's key and the rule set
computing the identical value `2.0` for `A`, `process_entry` does not
return the entry unchanged: the equal-value comparison reads the wrong
nesting level, falls into the raise, and the raise itself crashes with a
`TypeError` (its message formats the top-level `.get(k)` result `None`
with `{:.3f}`) that escapes the `except CompatibilityError` handler.
With a genuine conflict (`B` stored as `5.0`, computed as `2.0`) the same
`TypeError` escapes instead of a clean rejection, and the label merged
before the conflict stays applied to the caller's entry — the abort is
not atomic. -/
theorem process_entry_conflict_crashes :
    engIdem.process_entry entryOnce
      = .error (PyErr.typeError, entryOnce) ∧
    engTwoLabels.process_entry entryStoredB
      = .error (PyErr.typeError, entryStoredBMut) ∧
    entryStoredBMut ≠ entryStoredB := by
  refine ⟨?_, ?_, ?_⟩ <;>
    (simp [Compatibility.process_entry, mergeAll, mergeOne, applyAdj,
      truthyDict, truthyVal, pyDictFloatEq, alistGet, alistSet, engIdem,
      engTwoLabels, entryFresh, entryOnce, entryStoredB, entryStoredBMut] <;> norm_num)

/-- First engine of the two-step chain used by the I1 witness. -/
def engChainA : Compatibility :=
  ⟨"CompatChainA", false, fun _ => .ok [("A", 2)]⟩

/-- Second engine of the chain. -/
def engChainB : Compatibility :=
  ⟨"CompatChainB", false, fun _ => .ok [("B", 3)]⟩

/-- `entryFresh` after the first chain step. -/
def entryChain1 : Entry :=
  { entryFresh with
    correction := 2
    data := { entryFresh.data with
              energy_adjustments := some [("CompatChainA", [("A", 2)])] } }

/-- `entryChain1` after the second chain step. -/
def entryChain2 : Entry :=
  { entryFresh with
    correction := 5
    data := { entryFresh.data with
              energy_adjustments :=
                some [("CompatChainA", [("A", 2)]),
                      ("CompatChainB", [("B", 3)])] } }

/-- Witness for C3: the two-rule chain run from a fresh entry keeps I1 at
the final step (the theorem covers every intermediate step as well). -/
theorem processChain_preserves_I1_witness : I1 entryChain2 :=
  processChain_preserves_I1 [engChainA, engChainB] entryFresh
    (by (simp [I1, Compatibility.validate_corrections,
      documentedCorrection, truthyDict, entryFresh] <;> norm_num))
    [entryChain1, entryChain2]
    (by (simp [processChain, Compatibility.process_entry, mergeAll,
      mergeOne, applyAdj, truthyDict, truthyVal, alistGet, alistSet,
      engChainA, engChainB, entryFresh, entryChain1, entryChain2] <;> norm_num))
    entryChain2 (by simp)

/-- Reference table with `"O2" ↦ -4` per the spec's worked example. -/
def gasMP : GasCorrection := ⟨"MP", [("O2", -4)]⟩

/-- An O4 entry: reduced formula `"O2"` (2 atoms per formula unit), total
atom count 4, hence exactly 2 formula units. -/
def entryO4 : Entry :=
  { composition := ⟨[⟨"O", 3, 4⟩], "O2"⟩
    uncorrected_energy := -9
    correction := 0
    parameters := ⟨none, none, none, []⟩
    data := ⟨none, none, none⟩
    struct := none }

/-- Claim C4, counterexample: with table value `E = -4` for `"O2"` and the
two-formula-unit composition O4, the claimed value
`E * N - uncorrected_energy = -4 * 2 + 9 = 1` differs from the value the
code computes, `-7`: the code scales the table value by the total atom
count, not by the number of formula units. -/
theorem gas_correction_formula_units_counterexample :
    gasMP.get_correction entryO4 = -7 ∧
    ((-4 : ℚ) * 2 - entryO4.uncorrected_energy = 1) ∧
    gasMP.get_correction entryO4
      ≠ (-4 : ℚ) * 2 - entryO4.uncorrected_energy := by
  refine ⟨?_, ?_, ?_⟩ <;>
    (simp [GasCorrection.get_correction, Composition.num_atoms, alistGet,
      gasMP, entryO4] <;> norm_num)

/-- A single-element entry whose reduced formula is absent from `gasMP`. -/
def entryFeAbsent : Entry :=
  { composition := ⟨[⟨"Fe", 2, 1⟩], "Fe"⟩
    uncorrected_energy := -5
    correction := 0
    parameters := ⟨none, none, none, []⟩
    data := ⟨none, none, none⟩
    struct := none }

/-- Witness for C4 (amended): the present-formula branch at O4 and the
absent-formula branch at Fe. -/
theorem gas_correction_table_exact_witness :
    gasMP.get_correction entryO4
        = (-4 : ℚ) * entryO4.composition.num_atoms
          - entryO4.uncorrected_energy ∧
    gasMP.get_correction entryFeAbsent = 0 :=
  ⟨(gas_correction_table_exact gasMP entryO4).1 (-4)
      (by (simp [alistGet, gasMP, entryO4] <;> norm_num)),
   (gas_correction_table_exact gasMP entryFeAbsent).2
      (by (simp [alistGet, gasMP, entryFeAbsent] <;> norm_num))⟩

/-- A one-rule scheme contributing `2.0` to every entry. -/
def ruleTwo : Rule := ⟨"R2", "Correct gas energies", fun _ => .ok 2⟩

/-- The corrections list around `ruleTwo` (default `clean = True`). -/
def clW : CorrectionsList := ⟨"CompatW", true, [ruleTwo]⟩

/-- The state `entryFresh` is left in by auditing it with `clW`. -/
def entryWMut : Entry :=
  { entryFresh with
    correction := 2
    data := { entryFresh.data with
              energy_adjustments := some [("CompatW", [("R2", 2)])] } }

/-- Claim C5, counterexample: auditing the fresh entry with the one-rule
scheme mutates it — after `get_explanation_dict` the caller's entry has
correction `2` and a populated Ledger, and so differs from the entry that
was passed in. -/
theorem get_explanation_dict_mutates_counterexample :
    clW.get_explanation_dict entryFresh
      = .ok (⟨"CompatW", -9, some (-7),
              [("R2", "Correct gas energies", 2)]⟩, entryWMut) ∧
    entryWMut ≠ entryFresh := by
  constructor <;>
    (simp [CorrectionsList.get_explanation_dict,
      CorrectionsList.toCompatibility, CorrectionsList.get_corrections_dict,
      getCorrectionsDictAux, Compatibility.process_entry, mergeAll, mergeOne,
      applyAdj, cleanEntry, Entry.energy, truthyDict, truthyVal,
      pyDictFloatEq, alistGet, alistSet, clW, ruleTwo, entryFresh, entryWMut] <;> norm_num)

/-- The `ProcessResult` of processing `entryFresh` under `clW`. -/
def prW : ProcessResult := ⟨some entryWMut, entryWMut⟩

/-- The output of auditing `entryFresh` under `clW`. -/
def outW : Explanation × Entry :=
  (⟨"CompatW", -9, some (-7), [("R2", "Correct gas energies", 2)]⟩,
   entryWMut)

/-- Witness for C5 (amended), at the concrete audit of `entryFresh`. -/
theorem get_explanation_dict_entry_state_witness :
    outW.2 = prW.entryState ∧
      outW.1.corrected_energy = prW.result.map Entry.energy :=
  get_explanation_dict_entry_state clW entryFresh prW
    (by (simp [CorrectionsList.toCompatibility,
      CorrectionsList.get_corrections_dict, getCorrectionsDictAux,
      Compatibility.process_entry, mergeAll, mergeOne, applyAdj, cleanEntry,
      truthyDict, truthyVal, alistGet, alistSet, clW, ruleTwo, entryFresh,
      entryWMut, prW] <;> norm_num))
    outW
    (by (simp [CorrectionsList.get_explanation_dict,
      CorrectionsList.toCompatibility, CorrectionsList.get_corrections_dict,
      getCorrectionsDictAux, Compatibility.process_entry, mergeAll, mergeOne,
      applyAdj, cleanEntry, Entry.energy, truthyDict, truthyVal,
      pyDictFloatEq, alistGet, alistSet, clW, ruleTwo, entryFresh, entryWMut,
      outW] <;> norm_num))

/-- A rule that always raises `CompatibilityError`. -/
def ruleFail : Rule := ⟨"RF", "Checks POTCARs", fun _ => .error PyErr.compat⟩

/-- The corrections list around `ruleFail`. -/
def clFail : CorrectionsList := ⟨"CompatF", true, [ruleFail]⟩

/-- Claim C6, counterexample: for an entry the rule set rejects as
incompatible, the audit produces no record at all — the second
`get_corrections_dict` call of `get_explanation_dict` re-raises
`CompatibilityError`, which propagates out of the audit (leaving the
entry in its post-clean state) instead of being reported as an absent
final energy with zero rule values. -/
theorem get_explanation_dict_rejected_raises_counterexample :
    clFail.get_explanation_dict entryFresh
      = .error (PyErr.compat, cleanEntry entryFresh) := by
  (simp [CorrectionsList.get_explanation_dict,
    CorrectionsList.toCompatibility, CorrectionsList.get_corrections_dict,
    getCorrectionsDictAux, Compatibility.process_entry, cleanEntry,
    clFail, ruleFail, entryFresh] <;> norm_num)

/-- A rule contributing `3.0` under the label `RuleA`. -/
def ruleA3 : Rule := ⟨"RuleA", "docA", fun _ => .ok 3⟩

/-- A `clean = False` corrections list around `ruleA3`. -/
def clConf : CorrectionsList := ⟨"CompatC", false, [ruleA3]⟩

/-- An entry whose Ledger already stores `RuleA = 5.0` under `CompatC`, so
the merge conflicts with the computed `3.0`. -/
def entryConf : Entry :=
  { entryFresh with
    correction := 5
    data := { entryFresh.data with
              energy_adjustments := some [("CompatC", [("RuleA", 5)])] } }

/-- Witness for C6 (amended): under `clFail` the rule-level
`CompatibilityError` is re-raised by the audit, and under `clConf` the
merge-conflict `TypeError` on `entryConf` crashes the audit. -/
theorem get_explanation_dict_rejection_propagates_witness :
    clFail.get_explanation_dict entryFresh
      = .error (PyErr.compat,
          if clFail.clean then cleanEntry entryFresh else entryFresh) ∧
    clConf.get_explanation_dict entryConf
      = .error (PyErr.typeError, entryConf) :=
  ⟨(get_explanation_dict_rejection_propagates clFail entryFresh).1
      PyErr.compat
      (by simp [CorrectionsList.get_corrections_dict, getCorrectionsDictAux,
        clFail, ruleFail, cleanEntry, entryFresh]),
   (get_explanation_dict_rejection_propagates clConf entryConf).2
      (PyErr.typeError, entryConf)
      (by (simp [CorrectionsList.toCompatibility, Compatibility.process_entry,
        CorrectionsList.get_corrections_dict, getCorrectionsDictAux,
        mergeAll, mergeOne, applyAdj, truthyDict, truthyVal, pyDictFloatEq,
        alistGet, alistSet, clConf, ruleA3, entryConf, entryFresh]
          <;> norm_num))⟩

/-- A hash-checking `PotcarCorrection` expecting one O potcar hash. -/
def potcarMP : PotcarCorrection := ⟨[("O", "hashO")], true⟩

/-- The `PotcarCorrection` rule as seen by a corrections list. -/
def potcarRule : Rule :=
  ⟨"MPRelaxSet Potcar Correction", "Checks that POTCARs are valid",
   fun e => potcarMP.get_correction e⟩

/-- A corrections list whose first rule is the hash-checking potcar
verification. -/
def clPotcar : CorrectionsList :=
  ⟨"MaterialsProjectCompatibility", true, [potcarRule]⟩

/-- Claim C7, counterexample: with hash checking enabled and an entry
lacking `potcar_spec`, `PotcarCorrection` raises `ValueError`, which is not
a `CompatibilityError` and therefore crosses the `process_entries`
boundary, aborting the whole batch (with the entry left in its post-clean
state) instead of dropping the entry. -/
theorem process_entries_valueError_counterexample :
    clPotcar.toCompatibility.process_entries [entryFresh]
      = .error (PyErr.valueError, cleanEntry entryFresh) := by
  (simp [Compatibility.process_entries, Compatibility.process_entry,
    CorrectionsList.toCompatibility, CorrectionsList.get_corrections_dict,
    getCorrectionsDictAux, PotcarCorrection.get_correction,
    PotcarCorrection.psp_settings, truthyList, cleanEntry, clPotcar,
    potcarRule, potcarMP, entryFresh] <;> norm_num)

/-- A batch engine that rejects exactly entries with uncorrected energy
`-99` and contributes `{"A": 1.0}` to the others. -/
def engBatch : Compatibility :=
  ⟨"CompatB", true,
   fun e => if e.uncorrected_energy = -99 then .error PyErr.compat
            else .ok [("A", 1)]⟩

/-- Valid batch entry A. -/
def entryA : Entry := { entryFresh with uncorrected_energy := -1 }

/-- Invalid batch entry B (rejected by `engBatch`). -/
def entryB : Entry := { entryFresh with uncorrected_energy := -99 }

/-- Valid batch entry C. -/
def entryC : Entry := { entryFresh with uncorrected_energy := -2 }

/-- Processed form of `entryA`. -/
def entryA2 : Entry :=
  { entryA with
    correction := 1
    data := { entryA.data with
              energy_adjustments := some [("CompatB", [("A", 1)])] } }

/-- Processed form of `entryC`. -/
def entryC2 : Entry :=
  { entryC with
    correction := 1
    data := { entryC.data with
              energy_adjustments := some [("CompatB", [("A", 1)])] } }

/-- Witness for C7 (amended): the surfaced `ValueError` is not a
`CompatibilityError`, and the batch `[A(valid), B(invalid), C(valid)]`
returns `[A, C]` in that relative order. -/
theorem process_entries_drop_order_no_compat_witness :
    PyErr.valueError ≠ PyErr.compat ∧
      engBatch.process_entries [entryA, entryB, entryC]
        = .ok [entryA2, entryC2] := by
  constructor
  · exact (process_entries_drop_order_no_compat clPotcar.toCompatibility
      [entryFresh]).1 (PyErr.valueError, cleanEntry entryFresh)
      (by (simp [Compatibility.process_entries,
        Compatibility.process_entry, CorrectionsList.toCompatibility,
        CorrectionsList.get_corrections_dict, getCorrectionsDictAux,
        PotcarCorrection.get_correction, PotcarCorrection.psp_settings,
        truthyList, cleanEntry, clPotcar, potcarRule, potcarMP, entryFresh] <;> norm_num))
  · have hall : ∀ e ∈ [entryA, entryB, entryC],
        ∃ pr, engBatch.process_entry e = .ok pr := by
      intro e he
      have h3 : e = entryA ∨ e = entryB ∨ e = entryC := by simpa using he
      rcases h3 with rfl | rfl | rfl
      · exact ⟨⟨some entryA2, entryA2⟩,
          by (simp [Compatibility.process_entry, mergeAll, mergeOne,
            applyAdj, cleanEntry, truthyDict, truthyVal, alistGet, alistSet,
            engBatch, entryA, entryA2, entryFresh] <;> norm_num)⟩
      · exact ⟨⟨none, cleanEntry entryB⟩,
          by (simp [Compatibility.process_entry, cleanEntry, engBatch,
            entryB, entryFresh] <;> norm_num)⟩
      · exact ⟨⟨some entryC2, entryC2⟩,
          by (simp [Compatibility.process_entry, mergeAll, mergeOne,
            applyAdj, cleanEntry, truthyDict, truthyVal, alistGet, alistSet,
            engBatch, entryC, entryC2, entryFresh] <;> norm_num)⟩
    rw [(process_entries_drop_order_no_compat engBatch
        [entryA, entryB, entryC]).2 hall]
    (simp [List.filterMap_cons, Compatibility.process_entry, mergeAll,
      mergeOne, applyAdj, cleanEntry, truthyDict, truthyVal, alistGet,
      alistSet, engBatch, entryA, entryB, entryC, entryA2, entryC2,
      entryFresh] <;> norm_num)

/-- A `compat_type = "GGA"` UCorrection: both tables empty. -/
def uGGA : UCorrection := ⟨"MP", [], []⟩

/-- An Fe2O3 entry declaring run type `"LDA"`. -/
def entryLDA : Entry :=
  { composition := ⟨[⟨"Fe", 2, 2⟩, ⟨"O", 3, 3⟩], "Fe2O3"⟩
    uncorrected_energy := -10
    correction := 0
    parameters := ⟨some "LDA", none, none, []⟩
    data := ⟨none, none, none⟩
    struct := none }

/-- Claim C8, counterexample: `"LDA"` is a declared run type distinct from
both supported types, yet `UCorrection.get_correction` does not fail — only
`"HF"` is screened out — and here it returns a zero correction. -/
theorem u_correction_lda_accepted_counterexample :
    entryLDA.parameters.run_type = some "LDA" ∧
    uGGA.get_correction entryLDA = .ok 0 := by
  constructor
  · rfl
  · (simp [UCorrection.get_correction, UCorrection.loop, sortByX,
      insertX, compAmt, alistGet, List.getLast?, List.getLast, uGGA,
      entryLDA] <;> norm_num)

/-- `entryLDA` redeclared with run type `"HF"`. -/
def entryHF : Entry :=
  { entryLDA with parameters := ⟨some "HF", none, none, []⟩ }

/-- Witness for C8 (amended): the `"HF"` entry is rejected. -/
theorem u_correction_hf_rejected_witness :
    uGGA.get_correction entryHF = .error PyErr.compat :=
  u_correction_hf_rejected uGGA entryHF rfl

/-- An anion-correction table with peroxide corrections enabled. -/
def anionMP : AnionCorrection :=
  ⟨"MP",
   [("oxide", -7/10), ("peroxide", -1/2), ("superoxide", -1/3),
    ("ozonide", -1/5)],
   [("sulfide", -1/10)], true⟩

/-- Trivial external classifiers (never reached in the witness). -/
def extNone : Externals := ⟨fun _ => "sulfide", fun _ => ("oxide", 0)⟩

/-- A Li2O2 entry with no structural classification supplied. -/
def entryLi2O2 : Entry :=
  { composition := ⟨[⟨"Li", 1, 2⟩, ⟨"O", 3, 2⟩], "Li2O2"⟩
    uncorrected_energy := -10
    correction := 0
    parameters := ⟨none, none, none, []⟩
    data := ⟨none, none, none⟩
    struct := none }

/-- Witness for C9: the Li2O2 entry receives the peroxide value scaled by
its oxygen count, with the warning surfaced. -/
theorem anion_li2o2_peroxide_witness :
    anionMP.get_correction extNone entryLi2O2
      = .ok ((-1/2 : ℚ) * compAmt entryLi2O2.composition "O", true) :=
  anion_li2o2_peroxide anionMP extNone entryLi2O2 rfl rfl
    (by (simp [entryLi2O2] <;> norm_num))
    (by (simp [compContains, entryLi2O2] <;> norm_num))
    (by (simp [compContains, entryLi2O2] <;> norm_num))
    rfl rfl (-1/2) (by (simp [alistGet, anionMP] <;> norm_num))

/-- An entry storing the value `0.0` for label `A` under `engIdem`'s
source key. -/
def entryZeroStored : Entry :=
  { entryFresh with
    data := { entryFresh.data with
              energy_adjustments := some [("CompatA", [("A", 0)])] } }

/-- Witness for C10: the stored zero is overwritten by the computed `2.0`
and the correction increases by `2.0`, with no conflict raised. -/
theorem process_entry_stored_zero_overwrite_witness :
    engIdem.process_entry entryZeroStored
      = .ok ⟨some (applyAdj entryZeroStored 2
               (alistSet [("CompatA", [("A", 0)])] "CompatA"
                 (alistSet [("A", 0)] "A" 2))),
             applyAdj entryZeroStored 2
               (alistSet [("CompatA", [("A", 0)])] "CompatA"
                 (alistSet [("A", 0)] "A" 2))⟩ :=
  process_entry_stored_zero_overwrite engIdem entryZeroStored "A" 2
    [("CompatA", [("A", 0)])] [("A", 0)] rfl rfl rfl
    (by simp [alistGet, engIdem]) (by simp [alistGet]) (by norm_num)

end Pymatgen
